import Mathlib

/-!
Verification of the Pika-Backup job execution engine.

Shallow embedding of `src/borg/process.rs` (the `BorgCall` command builder,
the process supervisor poll loop `managed_process`, and the reconnect policy
`handle_disconnect`) together with the output schemas of `src/shared.rs`
(`Progress`, `LogLevel`, `MsgId`, `LogMessage`, `LogMessageEnum`).

Machine integers of the source (`u64` sizes, durations) are modelled as `Nat`;
fallible operations return `Except`/`Option`; the effectful parts of the
supervisor (reads from the child's stderr, the abort instruction, process
exit) are modelled by explicit event scripts fed to a step function that is a
direct translation of the Rust poll loop.

Modules of the `borg` crate that are not part of the sources at hand
(`status.rs`, `error.rs`, `utils.rs`, `communication.rs` and the module-level
constants) are modelled from the spec where needed; each such definition
carries a doc comment starting with `Modelled from the spec:`.
-/

namespace Pika

/-- A secret passphrase: `Password = Zeroizing<Vec<u8>>` in `shared.rs`,
modelled as its byte sequence. -/
abbrev Password := List Nat

/-! ## Log/progress message schemas, from `src/shared.rs` -/

/-- The `LogLevel` enum from `shared.rs` (`DEBUG < INFO < WARNING < ERROR < CRITICAL`,
derived `PartialOrd`/`Ord` in declaration order). -/
inductive LogLevel
  | DEBUG
  | INFO
  | WARNING
  | ERROR
  | CRITICAL
deriving DecidableEq, Repr

/-- Numeric rank realising the derived `Ord` of `LogLevel` (declaration
order). -/
def LogLevel.rank : LogLevel → Nat
  | .DEBUG => 0
  | .INFO => 1
  | .WARNING => 2
  | .ERROR => 3
  | .CRITICAL => 4

/-- The `MsgId` enum from `shared.rs`: machine-readable message identifiers, with
`Repository.DoesNotExist` renamed and a catch-all `Undefined` variant
(`#[serde(other)]`). -/
inductive MsgId
  | ConnectionClosed
  | ConnectionClosedWithHint
  | PassphraseWrong
  | RepositoryDoesNotExist
  | Other (s : String)
  | Undefined
deriving DecidableEq, Repr

/-- The `LogMessage` record from `shared.rs`: one structured log record of the borg
diagnostic stream. -/
structure LogMessage where
  levelname : LogLevel
  name : String
  message : String
  msgid : MsgId
deriving DecidableEq, Repr

/-- The `LogMessageEnum` union from `shared.rs`: a parsed structured record or the raw
text of an unparsable line. -/
inductive LogMessageEnum
  | ParsedErr (m : LogMessage)
  | UnparsableErr (raw : String)
deriving DecidableEq, Repr

/-- The `Progress` union from `shared.rs`: the three progress-record shapes of the
diagnostic stream, internally tagged by a `type` field. -/
inductive Progress
  | Archive (original_size compressed_size deduplicated_size nfiles : Nat)
      (path : String)
  | Message (operation : Nat) (msgid : Option String) (finished : Bool)
      (message : Option String)
  | Percent (operation : Nat) (msgid : Option String) (finished : Bool)
      (message : Option String) (current : Option Nat) (total : Option Nat)
deriving DecidableEq, Repr

/-! ## Error taxonomy

`src/borg/error.rs` is not among the sources at hand; its shape is fixed by
its uses in `process.rs` (`Error::Failed` with `failure.is_connection_error()`,
`Error::Aborted(Abort::User)`, `Error::PasswordMissing`, `ReturnCodeError`,
and `From` conversions for I/O and JSON errors) and by the spec's error
taxonomy (§3). -/

/-- Modelled from the spec: the closed set of failure kinds of the error
taxonomy (§3) — structured log-derived failure carrying the ordered records,
non-zero exit with raw exit code, I/O failure, malformed JSON payload,
missing credential, user abort. -/
inductive BError
  | Failed (msgs : List LogMessageEnum)
  | ReturnCode (code : Option Int)
  | Io
  | Json
  | PasswordMissing
  | Aborted
deriving DecidableEq, Repr

/-- Modelled from the spec: a message identifier marking a connection-class
failure ("connection closed", "connection closed with hint"), §3. -/
def MsgId.isConnection : MsgId → Bool
  | .ConnectionClosed => true
  | .ConnectionClosedWithHint => true
  | _ => false

/-- Specialisation of `LogMessageEnum::has_borg_msgid` to connection identifiers to connection identifiers:
only a parsed record can carry one (`shared.rs`). -/
def LogMessageEnum.isConnection : LogMessageEnum → Bool
  | .ParsedErr m => m.msgid.isConnection
  | .UnparsableErr _ => false

/-- Modelled from the spec: `failure.is_connection_error()` — a log-derived
failure is a connection error when one of its records carries a
connection-class message identifier (§3). Other error kinds are never
connection errors. -/
def BError.isConnectionError : BError → Bool
  | .Failed msgs => msgs.any LogMessageEnum.isConnection
  | _ => false

/-- The result of one attempt, generic in the decoded payload type. -/
abbrev BResult (T : Type) := Except BError T

/-! ## The command builder `BorgCall`, from `src/borg/process.rs` -/

/-- Sorted-unique association-list insert, realising the `BTreeMap::insert`
used for the environment overrides (key unique, last write wins, iteration in
key order). -/
def insertEnv : List (String × String) → String → String → List (String × String)
  | [], k, v => [(k, v)]
  | (k', v') :: rest, k, v =>
    if k < k' then (k, v) :: (k', v') :: rest
    else if k = k' then (k, v) :: rest
    else (k', v') :: insertEnv rest k v

/-- The `BorgCall` builder from `process.rs`: sub-command, option flags, environment
overrides, positional arguments, and the credential. -/
structure BorgCall where
  command : Option String
  options : List String
  envs : List (String × String)
  positional : List String
  password : Password
deriving DecidableEq, Repr

namespace BorgCall

/-- Translation of `BorgCall::default()`. -/
def default : BorgCall :=
  { command := none, options := [], envs := [], positional := [], password := [] }

/-- Translation of `BorgCall::new(command)`: sets the sub-command and auto-injects the
non-interactive `--rsh` option. -/
def new (command : String) : BorgCall :=
  { default with
    command := some command
    options :=
      ["--rsh", "ssh -o BatchMode=yes -o StrictHostKeyChecking=accept-new"] }

/-- Translation of `BorgCall::new_raw()`. -/
def new_raw : BorgCall := default

/-- Translation of `BorgCall::add_options`. -/
def add_options (c : BorgCall) (opts : List String) : BorgCall :=
  { c with options := c.options ++ opts }

/-- Translation of `BorgCall::add_positional`. -/
def add_positional (c : BorgCall) (pos : String) : BorgCall :=
  { c with positional := c.positional ++ [pos] }

/-- Translation of `BorgCall::add_envs`. -/
def add_envs (c : BorgCall) (vars : List (String × String)) : BorgCall :=
  { c with envs := vars.foldl (fun e kv => insertEnv e kv.1 kv.2) c.envs }

/-- The archive target string of `BorgCall::add_archive`:
`"{repo}::{archive_prefix}{archive}"` where `archive` is the first eight
bytes of the fresh random identifier, or the whole identifier when shorter
(`random_str.get(..8).unwrap_or(&random_str)`; the identifier is ASCII, so
byte and character indices coincide). -/
def archiveName (repo archPre randomStr : String) : String :=
  repo ++ "::" ++ archPre ++
    (if 8 ≤ randomStr.length then randomStr.take 8 else randomStr)

/-- Translation of `BorgCall::add_archive`, with the job's repository locator, archive-name
prefix and the fresh random identifier passed explicitly: the target replaces
an existing first positional in place, or is appended when the positional
list is empty. -/
def add_archive (c : BorgCall) (repo archPre randomStr : String) : BorgCall :=
  let arg := archiveName repo archPre randomStr
  match c.positional with
  | [] => c.add_positional arg
  | _ :: rest => { c with positional := arg :: rest }

/-- Translation of `BorgCall::args`: the finalized argument vector
`[subcommand?, ...options, "--", ...positionals]`. -/
def args (c : BorgCall) : List String :=
  c.command.toList ++ c.options ++ ["--"] ++ c.positional

/-- Translation of `BorgCall::add_password`: credential resolution. The explicit password,
the encryption flag and the job identifier come from the `BorgRunConfig`;
the system secret store lookup (keyed by job identifier and program name) is
passed as a function `store` returning the first matching item's secret, if
any. -/
def add_password (c : BorgCall) (explicitPassword : Option Password)
    (isEncrypted : Bool) (configId : Option String)
    (store : String → String → Option Password) (progName : String) :
    BResult BorgCall :=
  match explicitPassword with
  | some p => .ok { c with password := p }
  | none =>
    if isEncrypted then
      match configId with
      | some id =>
        match store id progName with
        | some p => .ok { c with password := p }
        | none => .error .PasswordMissing
      | none => .error .PasswordMissing
    else
      .ok { c with password := [] }

/-- The realized child-process invocation produced by `BorgCall::cmd` /
`cmd_async`: program name, argument vector, environment (the
credential-delivery variable first, then the caller-set overrides in map
order), and the bytes written into the credential pipe (`set_password`
writes the password into the pipe and returns the `BORG_PASSPHRASE_FD`
environment pair naming the pipe's read end). -/
structure SpawnedCommand where
  program : String
  args : List String
  envs : List (String × String)
  pipeContent : Password
deriving DecidableEq, Repr

/-- Translation of `BorgCall::set_password`: the environment pair delivered to the child
(variable `BORG_PASSPHRASE_FD`, value the read-end descriptor number) and
the bytes written into the pipe. -/
def set_password (c : BorgCall) (fd : Nat) : (String × String) × Password :=
  (("BORG_PASSPHRASE_FD", toString fd), c.password)

/-- Translation of `BorgCall::cmd` / `cmd_async`: spawns `borg` with the rendered argument
vector, the credential-delivery variable, and the caller-set environment. -/
def cmd (c : BorgCall) (fd : Nat) : SpawnedCommand :=
  { program := "borg"
    args := c.args
    envs := (c.set_password fd).1 :: c.envs
    pipeContent := (c.set_password fd).2 }

end BorgCall

/-! ## JSON values and the strict-schema decoders

`serde_json` values carrying the diagnostic stream. Numbers are modelled as
naturals, which covers every number the progress/log schemas can produce
(`u64` sizes and counts); object keys that matter are unique in every line
borg emits, and lookup takes the first occurrence. -/

/-- A JSON value. -/
inductive Json
  | null
  | bool (b : Bool)
  | num (n : Nat)
  | str (s : String)
  | arr (elems : List Json)
  | obj (fields : List (String × Json))

namespace Json

/-- First-occurrence field lookup in a JSON object's field list. -/
def getField (fields : List (String × Json)) (key : String) : Option Json :=
  (fields.find? (fun kv => kv.1 = key)).map Prod.snd

/-- Decode a required `u64` field. -/
def getNat (fields : List (String × Json)) (key : String) : Option Nat :=
  match getField fields key with
  | some (num n) => some n
  | _ => none

/-- Decode a required `String` field. -/
def getStr (fields : List (String × Json)) (key : String) : Option String :=
  match getField fields key with
  | some (str s) => some s
  | _ => none

/-- Decode a required `bool` field. -/
def getBool (fields : List (String × Json)) (key : String) : Option Bool :=
  match getField fields key with
  | some (bool b) => some b
  | _ => none

/-- Decode an `Option<String>` field: missing or `null` is `none`, a string
is `some`, anything else is a schema mismatch. -/
def getOptStr (fields : List (String × Json)) (key : String) :
    Option (Option String) :=
  match getField fields key with
  | none => some none
  | some null => some none
  | some (str s) => some (some s)
  | some _ => none

/-- Decode an `Option<u64>` field: missing or `null` is `none`, a number is
`some`, anything else is a schema mismatch. -/
def getOptNat (fields : List (String × Json)) (key : String) :
    Option (Option Nat) :=
  match getField fields key with
  | none => some none
  | some null => some none
  | some (num n) => some (some n)
  | some _ => none

end Json

/-- Strict decode of `LogLevel` from its serde name. -/
def decodeLogLevel : Json → Option LogLevel
  | .str "DEBUG" => some .DEBUG
  | .str "INFO" => some .INFO
  | .str "WARNING" => some .WARNING
  | .str "ERROR" => some .ERROR
  | .str "CRITICAL" => some .CRITICAL
  | _ => none

/-- Decode of `MsgId`: known identifier names map to their variants,
`Repository.DoesNotExist` by its serde rename, `{"Other": s}` to the newtype
variant, and any other string to `Undefined` (`#[serde(other)]`). -/
def decodeMsgId : Json → Option MsgId
  | .str "ConnectionClosed" => some .ConnectionClosed
  | .str "ConnectionClosedWithHint" => some .ConnectionClosedWithHint
  | .str "PassphraseWrong" => some .PassphraseWrong
  | .str "Repository.DoesNotExist" => some .RepositoryDoesNotExist
  | .str _ => some .Undefined
  | .obj [("Other", .str s)] => some (.Other s)
  | _ => none

/-- Strict-schema decode of a `Progress` record: an object whose `type` tag
is one of `archive_progress`, `progress_message`, `progress_percent`, with
the required and optional fields of the matching variant (`shared.rs`;
unknown fields are ignored, as serde does by default). -/
def decodeProgress : Json → Option Progress
  | .obj fields =>
    match Json.getField fields "type" with
    | some (.str "archive_progress") => do
      let original ← Json.getNat fields "original_size"
      let compressed ← Json.getNat fields "compressed_size"
      let dedup ← Json.getNat fields "deduplicated_size"
      let nfiles ← Json.getNat fields "nfiles"
      let path ← Json.getStr fields "path"
      pure (.Archive original compressed dedup nfiles path)
    | some (.str "progress_message") => do
      let operation ← Json.getNat fields "operation"
      let msgid ← Json.getOptStr fields "msgid"
      let finished ← Json.getBool fields "finished"
      let message ← Json.getOptStr fields "message"
      pure (.Message operation msgid finished message)
    | some (.str "progress_percent") => do
      let operation ← Json.getNat fields "operation"
      let msgid ← Json.getOptStr fields "msgid"
      let finished ← Json.getBool fields "finished"
      let message ← Json.getOptStr fields "message"
      let current ← Json.getOptNat fields "current"
      let total ← Json.getOptNat fields "total"
      pure (.Percent operation msgid finished message current total)
    | _ => none
  | _ => none

/-- Strict-schema decode of a `LogMessage` record: required `levelname`,
`name`, `message` fields, `msgid` defaulting to `Undefined` when missing
(`#[serde(default)]`). -/
def decodeLogMessage : Json → Option LogMessage
  | .obj fields => do
    let levelname ←
      match Json.getField fields "levelname" with
      | some j => decodeLogLevel j
      | none => none
    let name ← Json.getStr fields "name"
    let message ← Json.getStr fields "message"
    let msgid ←
      match Json.getField fields "msgid" with
      | some j => decodeMsgId j
      | none => some .Undefined
    pure { levelname, name, message, msgid }
  | _ => none

/-- Serde encoding of a `LogLevel`. -/
def encodeLogLevel : LogLevel → Json
  | .DEBUG => .str "DEBUG"
  | .INFO => .str "INFO"
  | .WARNING => .str "WARNING"
  | .ERROR => .str "ERROR"
  | .CRITICAL => .str "CRITICAL"

/-- Serde encoding of an optional string field (`None` serializes as
`null`). -/
def encodeOptStr : Option String → Json
  | none => .null
  | some s => .str s

/-- Serde encoding of an optional number field. -/
def encodeOptNat : Option Nat → Json
  | none => .null
  | some n => .num n

/-- Serde encoding of a `Progress` record, internally tagged by `type`. -/
def encodeProgress : Progress → Json
  | .Archive original compressed dedup nfiles path =>
    .obj [("type", .str "archive_progress"),
          ("original_size", .num original),
          ("compressed_size", .num compressed),
          ("deduplicated_size", .num dedup),
          ("nfiles", .num nfiles),
          ("path", .str path)]
  | .Message operation msgid finished message =>
    .obj [("type", .str "progress_message"),
          ("operation", .num operation),
          ("msgid", encodeOptStr msgid),
          ("finished", .bool finished),
          ("message", encodeOptStr message)]
  | .Percent operation msgid finished message current total =>
    .obj [("type", .str "progress_percent"),
          ("operation", .num operation),
          ("msgid", encodeOptStr msgid),
          ("finished", .bool finished),
          ("message", encodeOptStr message),
          ("current", encodeOptNat current),
          ("total", encodeOptNat total)]

/-! ## The output classifier

One line of the diagnostic stream is represented by the result of the JSON
parse (`none` for non-JSON text) together with the raw text. `managed_process`
first attempts a strict decode as `Progress`; otherwise `utils::check_line`
produces a `LogMessageEnum`. -/

/-- A classified line, as produced inside the poll loop of
`managed_process` (`log_json::Output`). -/
inductive Classified
  | Progress (p : Progress)
  | LogEntry (m : LogMessageEnum)
deriving DecidableEq, Repr

/-- Modelled from the spec: `utils::check_line` (the `utils` module is not
among the sources at hand) — strict-schema decode of the line as a structured
log record, returning `ParsedErr` on success and `UnparsableErr` wrapping the
raw text otherwise (§4.2). -/
def check_line (parsed : Option Json) (raw : String) : LogMessageEnum :=
  match parsed.bind decodeLogMessage with
  | some m => .ParsedErr m
  | none => .UnparsableErr raw

/-- The line classifier of the poll loop: strict decode as a progress record
first, otherwise `check_line`. -/
def classifyLine (parsed : Option Json) (raw : String) : Classified :=
  match parsed.bind decodeProgress with
  | some p => .Progress p
  | none => .LogEntry (check_line parsed raw)

/-! ## Status store

`src/borg/status.rs` is not among the sources at hand; the `Run` states are
fixed by their uses in `process.rs` and the UI, the snapshot fields by the
spec (§3, §4.3). -/

/-- The run-state enum `Run`, per its uses in `process.rs`
(`Running`, `Reconnecting`, `Stopping`, `Stalled`) and the UI
(`Init`, `SizeEstimation`). -/
inductive Run
  | Init
  | SizeEstimation
  | Running
  | Reconnecting
  | Stopping
  | Stalled
deriving DecidableEq, Repr

/-- The status snapshot: `run`, nullable `started` timestamp (modelled as a
`Nat` tick), nullable estimated size, the bounded recent message history
(most recent first) and the last classified message (§3). -/
structure Status where
  started : Option Nat
  run : Run
  estimated_size : Option Nat
  messages : List LogMessageEnum
  lastMessage : Option LogMessageEnum
deriving DecidableEq, Repr

/-- Modelled from the spec: `Status::add_message` (§4.3; `status.rs` is not
among the sources at hand) — pushes the classified event into the bounded
recent-history ring (most recent first, oldest evicted beyond the bound) and
updates `last_message`. -/
def Status.addMessage (bound : Nat) (s : Status) (m : LogMessageEnum) : Status :=
  { s with messages := (m :: s.messages).take bound, lastMessage := some m }

/-- Modelled from the spec: `Error::try_from` applied to the Status Store's
recent combined message history (§4.2; `error.rs`/`status.rs` are not among
the sources at hand) — if any entry is at or above the minimum `ERROR`
severity, the log-based error carrying the recent history is derived; an
empty or all-informational history yields no parseable error, signalling
fallback to exit-code classification. -/
def errorFromHistory (history : List LogMessageEnum) : Option BError :=
  if history.any (fun m =>
      match m with
      | .ParsedErr lm => LogLevel.ERROR.rank ≤ lm.levelname.rank
      | .UnparsableErr _ => false)
  then some (.Failed history)
  else none

/-- The caller's cancellation instruction (`communication.rs` is not among
the sources at hand; `process.rs` only distinguishes `Abort` from the
rest). -/
inductive Instruction
  | Continue
  | Abort
deriving DecidableEq, Repr

/-! ## Process supervisor: the poll loop of `managed_process`

One iteration of the loop reacts to the abort instruction, then performs one
read from the child's stderr. Reads are modelled by an explicit event script:
a timeout, an I/O error, end of stream, or one line (its JSON parse result
plus the raw text). The effects on the child process (SIGTERM, waiting for
exit) and on the event bus (messages sent, senders closed) are recorded in
the poll state. -/

/-- The outcome of one `read_line` with timeout. -/
inductive ReadEvent
  | timeout
  | readErr
  | eof
  | line (parsed : Option Json) (raw : String)

/-- Mutable state of one `managed_process` attempt: the shared status
snapshot, the unresponsive-duration accumulator, the events published to
subscribers, and the recorded process/bus effects. -/
structure PollState where
  status : Status
  unresponsive : Nat
  sent : List Classified
  sigtermSent : Bool
  waitedExit : Bool
  sendersClosed : Bool
deriving Repr

/-- Result of one poll-loop iteration: return an error from the attempt,
break out to exit handling, or continue looping. -/
inductive PollStep
  | ret (e : BError) (s : PollState)
  | brk (s : PollState)
  | cont (s : PollState)
deriving Repr

/-- One iteration of the poll loop of `managed_process`: the abort
instruction is checked first (status to `Stopping`, SIGTERM, wait for exit,
fail with the user-abort error); otherwise on timeout the unresponsive
accumulator grows by the poll timeout and, past the stall threshold while
not `Reconnecting`, the status becomes `Stalled`; other read errors fail the
attempt; end of stream breaks; a read line resets the accumulator, is
classified, a progress record forces `Running` (when not already `Running`),
a log entry is appended to the status history, and the classified event is
published. -/
def pollIter (pollTimeout stallThreshold bound : Nat) (instr : Instruction)
    (ev : ReadEvent) (s : PollState) : PollStep :=
  if instr = .Abort then
    .ret .Aborted
      { s with
        status := { s.status with run := .Stopping }
        sigtermSent := true
        waitedExit := true }
  else
    match ev with
    | .timeout =>
      let u := s.unresponsive + pollTimeout
      if stallThreshold < u ∧ s.status.run ≠ .Reconnecting then
        .cont { s with unresponsive := u, status := { s.status with run := .Stalled } }
      else
        .cont { s with unresponsive := u }
    | .readErr => .ret .Io s
    | .eof => .brk s
    | .line parsed raw =>
      let s1 := { s with unresponsive := 0 }
      match classifyLine parsed raw with
      | .Progress p =>
        let s2 :=
          if s1.status.run ≠ .Running then
            { s1 with status := { s1.status with run := .Running } }
          else s1
        .cont { s2 with sent := s2.sent ++ [.Progress p] }
      | .LogEntry m =>
        let s2 := { s1 with status := s1.status.addMessage bound m }
        .cont { s2 with sent := s2.sent ++ [.LogEntry m] }

/-- The observed exit of the child process: success flag, raw exit code, and
the standard-output payload. -/
structure ExitInfo where
  success : Bool
  code : Option Int
  stdout : String
deriving Repr

/-- Exit handling of `managed_process`: the payload decoded is the child's
standard output, except that the expected-no-payload case (`T = ()`) decodes
the sentinel document `null`; on success a decode failure is fatal (JSON
error); on failure the structured error derived from the recent message
history is preferred, falling back to the raw exit code. -/
def exitOutcome {T : Type} (dec : String → Option T) (isUnit : Bool)
    (exit : ExitInfo) (history : List LogMessageEnum) : BResult T :=
  let result := dec (if isUnit then "null" else exit.stdout)
  if exit.success then
    match result with
    | some t => .ok t
    | none => .error .Json
  else
    match errorFromHistory history with
    | some e => .error e
    | none => .error (.ReturnCode exit.code)

/-- The poll loop of `managed_process`, driven by the event script: iterate
`pollIter`; a `ret` returns the error, a `brk` closes all subscribers and
runs exit handling against the status history; `none` when the script is
exhausted before the loop ends. -/
def pollRun {T : Type} (pollTimeout stallThreshold bound : Nat)
    (dec : String → Option T) (isUnit : Bool) (instr : Nat → Instruction)
    (exit : ExitInfo) :
    List ReadEvent → Nat → PollState → Option (BResult T × PollState)
  | [], _, _ => none
  | ev :: evs, n, s =>
    match pollIter pollTimeout stallThreshold bound (instr n) ev s with
    | .ret e s' => some (.error e, s')
    | .brk s' =>
      let s'' := { s' with sendersClosed := true }
      some (exitOutcome dec isUnit exit s''.status.messages, s'')
    | .cont s' => pollRun pollTimeout stallThreshold bound dec isUnit instr
        exit evs (n + 1) s'

/-- The observable behaviour of one spawned child: the per-iteration abort
instruction, the stderr read events, and the process exit. -/
structure AttemptScript where
  instr : Nat → Instruction
  events : List ReadEvent
  exit : ExitInfo

/-- Fresh per-attempt poll state over the shared status snapshot. -/
def initPollState (st : Status) : PollState :=
  { status := st, unresponsive := 0, sent := [], sigtermSent := false,
    waitedExit := false, sendersClosed := false }

/-- Translation of `BorgCall::managed_process`: one supervised attempt, reading the shared
status store and leaving its final snapshot behind. -/
def managed_process {T : Type} (pollTimeout stallThreshold bound : Nat)
    (dec : String → Option T) (isUnit : Bool) (scr : AttemptScript)
    (st : Status) : Option (BResult T × Status) :=
  match pollRun pollTimeout stallThreshold bound dec isUnit scr.instr scr.exit
      scr.events 0 (initPollState st) with
  | some (r, ps) => some (r, ps.status)
  | none => none

/-! ## Reconnect policy: `handle_disconnect` -/

/-- The options appended on the first connection error of a job:
`["--lock-wait", LOCK_WAIT_RECONNECT.as_secs()]`. -/
def lockWaitOptions (lockWaitSecs : Nat) : List String :=
  ["--lock-wait", toString lockWaitSecs]

/-- State threaded through the reconnect loop: the (mutable) call, the retry
counter, the has-retried-before flag, and the shared status snapshot. -/
structure HDState where
  call : BorgCall
  retries : Nat
  retried : Bool
  status : Status
deriving DecidableEq, Repr

/-- One reconnect-loop decision: return the result, or continue with the
updated state. -/
inductive HDStep (T : Type)
  | done (r : BResult T) (s : HDState)
  | next (s : HDState)

/-- The loop body of `handle_disconnect`, given one attempt's result: a
connection-error failure triggers (1) on the first such failure of the job,
setting the `retried` flag and appending the lock-wait options to the call,
(2) if the status is not already `Reconnecting`, resetting the retry counter
to zero and transitioning to `Reconnecting`, (3) if the counter is below the
maximum, incrementing it and retrying, else returning the failure; every
other result is returned as is. -/
def hdIter {T : Type} (maxReconnect lockWaitSecs : Nat) (r : BResult T)
    (s : HDState) : HDStep T :=
  match r with
  | .error e =>
    if e.isConnectionError then
      let s1 :=
        if !s.retried then
          { s with retried := true
                   call := s.call.add_options (lockWaitOptions lockWaitSecs) }
        else s
      let s2 :=
        if s1.status.run ≠ Run.Reconnecting then
          { s1 with retries := 0
                    status := { s1.status with run := .Reconnecting } }
        else s1
      if s2.retries < maxReconnect then .next { s2 with retries := s2.retries + 1 }
      else .done r s2
    else .done r s
  | .ok _ => .done r s

/-- The reconnect loop over an abstract attempt function (attempt index,
current call, shared status in; result and status out), with explicit fuel
(`none` on fuel exhaustion or an exhausted attempt script). -/
def hdRun {T : Type} (att : Nat → BorgCall → Status → Option (BResult T × Status))
    (maxReconnect lockWaitSecs : Nat) :
    Nat → Nat → HDState → Option (BResult T × HDState)
  | 0, _, _ => none
  | fuel + 1, n, s =>
    match att n s.call s.status with
    | none => none
    | some (r, status') =>
      match hdIter maxReconnect lockWaitSecs r { s with status := status' } with
      | .done r' s' => some (r', s')
      | .next s' => hdRun att maxReconnect lockWaitSecs fuel (n + 1) s'

/-- Translation of `BorgCall::handle_disconnect` over an abstract attempt function: records
the job start timestamp in the status store, then runs the bounded-retry
reconnect loop starting from zero retries and a clear `retried` flag. -/
def handle_disconnect {T : Type}
    (att : Nat → BorgCall → Status → Option (BResult T × Status))
    (maxReconnect lockWaitSecs now fuel : Nat) (call : BorgCall)
    (st : Status) : Option (BResult T × HDState) :=
  hdRun att maxReconnect lockWaitSecs fuel 0
    { call := call, retries := 0, retried := false
      status := { st with started := some now } }

/-- The whole job execution: `handle_disconnect` where each attempt is one
`managed_process` run driven by that attempt's script. -/
def handle_disconnect_scripts {T : Type} (pollTimeout stallThreshold bound : Nat)
    (dec : String → Option T) (isUnit : Bool) (scripts : Nat → AttemptScript)
    (maxReconnect lockWaitSecs now fuel : Nat) (call : BorgCall)
    (st : Status) : Option (BResult T × HDState) :=
  handle_disconnect
    (fun n _ status =>
      managed_process pollTimeout stallThreshold bound dec isUnit (scripts n) status)
    maxReconnect lockWaitSecs now fuel call st

/-! ## Auxiliary definitions for the verification -/

/-- The state carried by a poll-loop step, whatever the step kind. -/
def PollStep.state : PollStep → PollState
  | .ret _ s => s
  | .brk s => s
  | .cont s => s

/-- The state carried by a reconnect-loop step, whatever the step kind. -/
def HDStep.state {T : Type} : HDStep T → HDState
  | .done _ s => s
  | .next s => s

/-- The at-most-once lock-wait mutation, as a relation between a reconnect
state and a later one: a set `retried` flag pins the call; a clear flag
allows exactly one append of the lock-wait options, setting the flag. -/
def LockOnce (lockWaitSecs : Nat) (s s' : HDState) : Prop :=
  (s.retried = true → s'.retried = true ∧ s'.call = s.call) ∧
  (s.retried = false →
    (s'.retried = false ∧ s'.call = s.call) ∨
    (s'.retried = true ∧
      s'.call = s.call.add_options (lockWaitOptions lockWaitSecs)))

/-! Concrete fixtures used by the closed witness/counterexample theorems. -/

/-- A fresh status snapshot before any run. -/
def initStatus : Status :=
  { started := none, run := .Init, estimated_size := none, messages := [],
    lastMessage := none }

/-- A poll state whose status is `Stalled`, the job not reconnecting. -/
def stalledState : PollState :=
  { status := { initStatus with run := .Stalled }, unresponsive := 0,
    sent := [], sigtermSent := false, waitedExit := false,
    sendersClosed := false }

/-- The poll state actually produced from `stalledState` by reading the
non-progress line `"foo"`. -/
def stalledStateAfter : PollState :=
  { stalledState with
    status := { stalledState.status with
                messages := [.UnparsableErr "foo"]
                lastMessage := some (.UnparsableErr "foo") }
    sent := [.LogEntry (.UnparsableErr "foo")] }

/-- A structured connection-error failure (message identifier
`ConnectionClosed` at `ERROR` severity). -/
def connErr : BError :=
  .Failed [.ParsedErr
    { levelname := .ERROR, name := "borg.repository",
      message := "Connection closed by remote host",
      msgid := .ConnectionClosed }]

/-- A reconnect state at the start of a job. -/
def hdS0 : HDState :=
  { call := BorgCall.new "create", retries := 0, retried := false,
    status := initStatus }

/-- A reconnect state mid-reconnect with three retries used up. -/
def hdS3 : HDState :=
  { call := BorgCall.new "create", retries := 3, retried := true,
    status := { initStatus with run := .Reconnecting } }

/-- A payload decoder for the no-payload case: exactly the sentinel document
`null` decodes. -/
def unitDec : String → Option Unit :=
  fun s => if s = "null" then some () else none

/-- A one-attempt script: no abort, immediate end of stream, successful
exit. -/
def okScript : AttemptScript :=
  { instr := fun _ => .Continue, events := [.eof],
    exit := { success := true, code := some 0, stdout := "" } }

/-- The final reconnect state of the `okScript` job started at tick 5. -/
def okFinal : HDState :=
  { call := BorgCall.new "create", retries := 0, retried := false,
    status := { initStatus with started := some 5 } }

/-! ## Theorems -/

/-- Claim C7: for every builder state with a sub-command set, the finalized
argument vector is the sub-command name, followed by the accumulated option
flags in insertion order, the literal separator `"--"`, then the positional
arguments in insertion order. -/
theorem args_layout (c : BorgCall) (sub : String) (h : c.command = some sub) :
    c.args = sub :: (c.options ++ ["--"] ++ c.positional) := by
  simp [BorgCall.args, h]

/-- Witness for `args_layout` at the `create` sub-command. -/
theorem args_layout_witness :
    (BorgCall.new "create").args =
      "create" :: ((BorgCall.new "create").options ++ ["--"] ++
        (BorgCall.new "create").positional) :=
  args_layout (BorgCall.new "create") "create" rfl

/-- Claim C5: the credential never reaches the argument vector or the
environment in cleartext — two builder states differing only in the password
render identical argument vectors and identical environments; the only
password-derived datum in the spawned environment is `BORG_PASSPHRASE_FD`
carrying the pipe read-end descriptor number, and the secret bytes go only
into the pipe. -/
theorem credential_confidentiality (c₁ c₂ : BorgCall) (fd : Nat)
    (hc : c₁.command = c₂.command) (ho : c₁.options = c₂.options)
    (he : c₁.envs = c₂.envs) (hp : c₁.positional = c₂.positional) :
    c₁.args = c₂.args ∧
    (c₁.cmd fd).args = (c₂.cmd fd).args ∧
    (c₁.cmd fd).envs = (c₂.cmd fd).envs ∧
    (c₁.cmd fd).envs = ("BORG_PASSPHRASE_FD", toString fd) :: c₁.envs ∧
    (c₁.cmd fd).pipeContent = c₁.password := by
  cases c₁
  cases c₂
  simp_all [BorgCall.args, BorgCall.cmd, BorgCall.set_password]

/-- Witness for `credential_confidentiality`: two calls differing only in
the password. -/
theorem credential_confidentiality_witness :
    ({ BorgCall.new "create" with password := [1, 2, 3] } : BorgCall).args =
      (BorgCall.new "create").args ∧
    (({ BorgCall.new "create" with password := [1, 2, 3] } : BorgCall).cmd 7).args =
      ((BorgCall.new "create").cmd 7).args ∧
    (({ BorgCall.new "create" with password := [1, 2, 3] } : BorgCall).cmd 7).envs =
      ((BorgCall.new "create").cmd 7).envs ∧
    (({ BorgCall.new "create" with password := [1, 2, 3] } : BorgCall).cmd 7).envs =
      ("BORG_PASSPHRASE_FD", toString 7) ::
        ({ BorgCall.new "create" with password := [1, 2, 3] } : BorgCall).envs ∧
    (({ BorgCall.new "create" with password := [1, 2, 3] } : BorgCall).cmd 7).pipeContent =
      ({ BorgCall.new "create" with password := [1, 2, 3] } : BorgCall).password :=
  credential_confidentiality _ _ 7 rfl rfl rfl rfl

/-- Claim C6: credential resolution precedence — an explicit password wins; an
encrypted job with an identifier falls back to the secret-store lookup; an
unencrypted job gets the empty password; and the missing-credential failure
occurs exactly when the job is encrypted, no explicit password is given, and
either no identifier is available or the store lookup finds no item. -/
theorem add_password_spec (c : BorgCall) (exp : Option Password) (enc : Bool)
    (cid : Option String) (store : String → String → Option Password)
    (prog : String) :
    (∀ p, exp = some p →
        c.add_password exp enc cid store prog = .ok { c with password := p }) ∧
    (∀ id p, exp = none → cid = some id → store id prog = some p →
        enc = true →
        c.add_password exp enc cid store prog = .ok { c with password := p }) ∧
    (exp = none → enc = false →
        c.add_password exp enc cid store prog = .ok { c with password := [] }) ∧
    (c.add_password exp enc cid store prog = .error .PasswordMissing ↔
        exp = none ∧ enc = true ∧
          (cid = none ∨ ∃ id, cid = some id ∧ store id prog = none)) := by
  refine ⟨?_, ?_, ?_, ?_⟩
  · rintro p rfl
    rfl
  · rintro id p rfl rfl hs rfl
    simp [BorgCall.add_password, hs]
  · rintro rfl rfl
    rfl
  · cases exp with
    | some p => simp [BorgCall.add_password]
    | none =>
      cases enc with
      | false => simp [BorgCall.add_password]
      | true =>
        cases cid with
        | none => simp [BorgCall.add_password]
        | some id =>
          cases hs : store id prog with
          | none => simp [BorgCall.add_password, hs]
          | some p => simp [BorgCall.add_password, hs]

/-- Witness for `add_password_spec`: each precedence branch and a
missing-credential failure at concrete inputs. -/
theorem add_password_spec_witness :
    (BorgCall.new "create").add_password (some [9]) false none
        (fun _ _ => none) "pika-backup" =
      .ok { BorgCall.new "create" with password := [9] } ∧
    (BorgCall.new "create").add_password none true (some "id")
        (fun _ _ => some [7]) "pika-backup" =
      .ok { BorgCall.new "create" with password := [7] } ∧
    (BorgCall.new "create").add_password none false none
        (fun _ _ => none) "pika-backup" =
      .ok { BorgCall.new "create" with password := [] } ∧
    (BorgCall.new "create").add_password none true none
        (fun _ _ => none) "pika-backup" = .error .PasswordMissing :=
  ⟨(add_password_spec _ _ _ _ _ _).1 [9] rfl,
   (add_password_spec _ _ _ _ _ _).2.1 "id" [7] rfl rfl rfl rfl,
   (add_password_spec _ _ _ _ _ _).2.2.1 rfl rfl,
   (add_password_spec _ _ _ _ _ _).2.2.2.mpr ⟨rfl, rfl, Or.inl rfl⟩⟩

/-- Claim C9: `add_archive` sets the archive target (repository locator,
`"::"`, prefix, fresh short identifier) as the first positional argument —
replacing an existing first positional in place, appending as the sole
positional when the list is empty — and leaves every other positional and
every other builder field unchanged. -/
theorem add_archive_spec (c : BorgCall) (repo pre rand : String) :
    (c.positional = [] →
        (c.add_archive repo pre rand).positional =
          [BorgCall.archiveName repo pre rand]) ∧
    (∀ p ps, c.positional = p :: ps →
        (c.add_archive repo pre rand).positional =
          BorgCall.archiveName repo pre rand :: ps) ∧
    (c.add_archive repo pre rand).command = c.command ∧
    (c.add_archive repo pre rand).options = c.options ∧
    (c.add_archive repo pre rand).envs = c.envs ∧
    (c.add_archive repo pre rand).password = c.password ∧
    BorgCall.archiveName repo pre rand =
      repo ++ "::" ++ pre ++
        (if 8 ≤ rand.length then rand.take 8 else rand) := by
  rcases hcp : c.positional with _ | ⟨p, ps⟩ <;>
    simp_all [BorgCall.add_archive, BorgCall.add_positional,
      BorgCall.archiveName, hcp]

/-- Witness for `add_archive_spec`: the empty-positional and the
replace-in-place cases at concrete inputs. -/
theorem add_archive_spec_witness :
    ((BorgCall.new "create").add_archive "repo" "pre-" "0123456789ab").positional =
      [BorgCall.archiveName "repo" "pre-" "0123456789ab"] ∧
    (({ BorgCall.new "create" with positional := ["old", "keep"] } : BorgCall).add_archive
        "repo" "pre-" "0123456789ab").positional =
      BorgCall.archiveName "repo" "pre-" "0123456789ab" :: ["keep"] :=
  ⟨(add_archive_spec _ _ _ _).1 rfl,
   (add_archive_spec _ _ _ _).2.1 "old" ["keep"] rfl⟩

/-- Strict decode inverts the serde encoding of a progress record: every
documented field round-trips. -/
theorem decodeProgress_encodeProgress (p : Progress) :
    decodeProgress (encodeProgress p) = some p := by
  cases p with
  | Archive a b c d path =>
    simp [encodeProgress, decodeProgress, Json.getField, Json.getNat,
      Json.getStr, Json.getBool, Json.getOptStr, Json.getOptNat, List.find?]
  | Message op msgid fin msg =>
    cases msgid <;> cases msg <;>
      simp [encodeProgress, decodeProgress, Json.getField, Json.getNat,
        Json.getStr, Json.getBool, Json.getOptStr, Json.getOptNat, List.find?,
        encodeOptStr]
  | Percent op msgid fin msg cur tot =>
    cases msgid <;> cases msg <;> cases cur <;> cases tot <;>
      simp [encodeProgress, decodeProgress, Json.getField, Json.getNat,
        Json.getStr, Json.getBool, Json.getOptStr, Json.getOptNat, List.find?,
        encodeOptStr, encodeOptNat]

/-- Claim C8: the line classifier is total by construction and never fails: a
line that strictly decodes as a progress record classifies as `Progress`
with every documented field round-tripped; otherwise a line that strictly
decodes as a structured log record classifies as a parsed log entry; a line
that decodes as neither — including non-JSON text — classifies as the
unparsable variant wrapping the raw text. -/
theorem classifier_spec :
    (∀ (p : Progress) (raw : String),
        classifyLine (some (encodeProgress p)) raw = .Progress p) ∧
    (∀ (j : Json) (raw : String) (m : LogMessage), decodeProgress j = none →
        decodeLogMessage j = some m →
        classifyLine (some j) raw = .LogEntry (.ParsedErr m)) ∧
    (∀ (parsed : Option Json) (raw : String),
        parsed.bind decodeProgress = none →
        parsed.bind decodeLogMessage = none →
        classifyLine parsed raw = .LogEntry (.UnparsableErr raw)) ∧
    (∀ raw : String, classifyLine none raw = .LogEntry (.UnparsableErr raw)) := by
  refine ⟨?_, ?_, ?_, ?_⟩
  · intro p raw
    simp [classifyLine, decodeProgress_encodeProgress]
  · intro j raw m hp hm
    simp [classifyLine, check_line, hp, hm]
  · intro parsed raw hp hm
    simp [classifyLine, check_line, hp, hm]
  · intro raw
    rfl

/-- Witness for `classifier_spec`: one line of each classification at
concrete inputs. -/
theorem classifier_spec_witness :
    classifyLine (some (encodeProgress (.Archive 10 6 3 2 "/home/x"))) "" =
      .Progress (.Archive 10 6 3 2 "/home/x") ∧
    classifyLine
        (some (.obj [("levelname", .str "ERROR"), ("name", .str "borg"),
          ("message", .str "oops"), ("msgid", .str "ConnectionClosed")]))
        "" =
      .LogEntry (.ParsedErr
        { levelname := .ERROR, name := "borg", message := "oops",
          msgid := .ConnectionClosed }) ∧
    classifyLine none "random stderr noise" =
      .LogEntry (.UnparsableErr "random stderr noise") :=
  ⟨classifier_spec.1 _ "",
   classifier_spec.2.1 _ "" _ rfl rfl,
   classifier_spec.2.2.2 "random stderr noise"⟩

/-- Counterexample to claim C4: a successful read of the non-progress line
`"foo"` while the status is `Stalled` — and thus not `Reconnecting` — leaves
the run state `Stalled`; contrary to the claim, a successful read that does
not parse as a progress record does not ensure `Running`. -/
theorem stall_recovery_counterexample :
    pollIter 1 10 100 .Continue (.line none "foo") stalledState =
      .cont stalledStateAfter ∧
    stalledState.status.run ≠ Run.Reconnecting ∧
    stalledStateAfter.status.run = Run.Stalled ∧
    stalledStateAfter.status.run ≠ Run.Running :=
  ⟨rfl, by decide, rfl, by decide⟩

/-- Claim C4, amended: a read timeout adds the poll-timeout constant to the
unresponsive accumulator and, strictly past the stall threshold while not
`Reconnecting`, transitions the status to `Stalled`; any successful read
resets the accumulator to zero; a successful read that parses as a progress
record while not `Reconnecting` ensures the status is `Running`; a
successful read that does not parse as a progress record leaves the run
state unchanged. -/
theorem stall_detection_spec (pt stall bound : Nat) (s : PollState) :
    (stall < s.unresponsive + pt → s.status.run ≠ .Reconnecting →
        pollIter pt stall bound .Continue .timeout s =
          .cont { s with unresponsive := s.unresponsive + pt,
                         status := { s.status with run := .Stalled } }) ∧
    (¬(stall < s.unresponsive + pt ∧ s.status.run ≠ .Reconnecting) →
        pollIter pt stall bound .Continue .timeout s =
          .cont { s with unresponsive := s.unresponsive + pt }) ∧
    (∀ parsed raw,
        (pollIter pt stall bound .Continue (.line parsed raw) s).state.unresponsive
          = 0) ∧
    (∀ parsed raw p, classifyLine parsed raw = .Progress p →
        s.status.run ≠ .Reconnecting →
        (pollIter pt stall bound .Continue
            (.line parsed raw) s).state.status.run = .Running) ∧
    (∀ parsed raw m, classifyLine parsed raw = .LogEntry m →
        (pollIter pt stall bound .Continue
            (.line parsed raw) s).state.status.run = s.status.run) := by
  refine ⟨?_, ?_, ?_, ?_, ?_⟩
  · intro h1 h2
    simp [pollIter, h1, h2]
  · intro h
    simp [pollIter, eq_false h]
  · intro parsed raw
    cases hcl : classifyLine parsed raw with
    | Progress p =>
      by_cases hrun : s.status.run ≠ Run.Running <;>
        simp [pollIter, hcl, hrun, PollStep.state]
    | LogEntry m =>
      simp [pollIter, hcl, PollStep.state]
  · intro parsed raw p hcl _hrc
    by_cases hrun : s.status.run ≠ Run.Running
    · simp [pollIter, hcl, hrun, PollStep.state]
    · push_neg at hrun
      simp [pollIter, hcl, hrun, PollStep.state]
  · intro parsed raw m hcl
    simp [pollIter, hcl, PollStep.state, Status.addMessage]

/-- Witness for `stall_detection_spec`: a stall transition, a no-stall
timeout, and the progress/non-progress read behaviours, at concrete
inputs. -/
theorem stall_detection_spec_witness :
    pollIter 7 10 100 .Continue .timeout
        { stalledState with unresponsive := 4 } =
      .cont { stalledState with
              unresponsive := 11
              status := { stalledState.status with run := .Stalled } } ∧
    pollIter 7 10 100 .Continue .timeout stalledState =
      .cont { stalledState with unresponsive := 7 } ∧
    (pollIter 7 10 100 .Continue
        (.line none "foo") stalledState).state.unresponsive = 0 ∧
    (pollIter 7 10 100 .Continue
        (.line (some (encodeProgress (.Archive 1 1 1 1 "p"))) "")
        stalledState).state.status.run = .Running ∧
    (pollIter 7 10 100 .Continue
        (.line none "foo") stalledState).state.status.run =
      stalledState.status.run :=
  ⟨(stall_detection_spec 7 10 100 _).1 (by decide) (by decide),
   (stall_detection_spec 7 10 100 _).2.1 (by decide),
   (stall_detection_spec 7 10 100 _).2.2.1 none "foo",
   (stall_detection_spec 7 10 100 _).2.2.2.1 _ ""
     (.Archive 1 1 1 1 "p")
     (by simp [classifyLine, decodeProgress_encodeProgress]) (by decide),
   (stall_detection_spec 7 10 100 _).2.2.2.2 none "foo" _ rfl⟩

/-- Claim C2: at the top of every poll iteration, before the next blocking
read, a signalled abort sets the status to `Stopping`, sends the child
SIGTERM (a termination signal, not a kill), waits until the process has
exited, and fails the attempt with the user-abort error — an aborted
attempt never returns a success value. -/
theorem abort_spec {T : Type} (pt stall bound : Nat) (dec : String → Option T)
    (isUnit : Bool) :
    (∀ (ev : ReadEvent) (s : PollState),
        pollIter pt stall bound .Abort ev s =
          .ret .Aborted
            { s with status := { s.status with run := .Stopping },
                     sigtermSent := true, waitedExit := true }) ∧
    (∀ (instr : Nat → Instruction) (exit : ExitInfo) (ev : ReadEvent)
        (evs : List ReadEvent) (n : Nat) (s : PollState),
        instr n = .Abort →
        pollRun pt stall bound dec isUnit instr exit (ev :: evs) n s =
          some (.error .Aborted,
            { s with status := { s.status with run := .Stopping },
                     sigtermSent := true, waitedExit := true })) := by
  constructor
  · intro ev s
    rfl
  · intro instr exit ev evs n s h
    simp [pollRun, h, pollIter]

/-- Witness for `abort_spec`: a concrete aborted attempt, independent of the
pending read. -/
theorem abort_spec_witness :
    pollRun 1 10 100 unitDec true (fun _ => .Abort)
        { success := true, code := some 0, stdout := "" }
        [.eof] 0 (initPollState initStatus) =
      some (.error .Aborted,
        { initPollState initStatus with
          status := { (initPollState initStatus).status with run := .Stopping },
          sigtermSent := true, waitedExit := true }) :=
  (abort_spec 1 10 100 unitDec true).2 _ _ .eof [] 0 _ rfl

/-- Claim C3: at process exit, a successful exit decodes the child's standard
output as the expected payload — the expected-no-payload case decoding the
sentinel document `null` — with a decode failure fatal for the attempt; a
failed exit prefers the structured error derived from the status store's
recent message history and only without one fails with the raw exit code;
and at end of stream the supervisor closes the subscribers and applies
exactly this exit handling to the store's history. -/
theorem exit_outcome_spec {T : Type} (pt stall bound : Nat)
    (dec : String → Option T) (exit : ExitInfo)
    (hist : List LogMessageEnum) :
    (∀ t : T, exit.success = true → dec "null" = some t →
        exitOutcome dec true exit hist = .ok t) ∧
    (∀ t : T, exit.success = true → dec exit.stdout = some t →
        exitOutcome dec false exit hist = .ok t) ∧
    (∀ isUnit : Bool, exit.success = true →
        dec (if isUnit then "null" else exit.stdout) = none →
        exitOutcome dec isUnit exit hist = .error .Json) ∧
    (∀ (isUnit : Bool) (e : BError), exit.success = false →
        errorFromHistory hist = some e →
        exitOutcome dec isUnit exit hist = .error e) ∧
    (∀ isUnit : Bool, exit.success = false → errorFromHistory hist = none →
        exitOutcome dec isUnit exit hist = .error (.ReturnCode exit.code)) ∧
    (∀ (isUnit : Bool) (instr : Nat → Instruction) (evs : List ReadEvent)
        (n : Nat) (s : PollState), instr n = .Continue →
        pollRun pt stall bound dec isUnit instr exit (.eof :: evs) n s =
          some (exitOutcome dec isUnit exit s.status.messages,
            { s with sendersClosed := true })) := by
  refine ⟨?_, ?_, ?_, ?_, ?_, ?_⟩ <;>
    intros <;> simp_all [exitOutcome, pollRun, pollIter]

/-- Witness for `exit_outcome_spec`: each exit-handling branch and the
end-of-stream path at concrete inputs. -/
theorem exit_outcome_spec_witness :
    exitOutcome unitDec true
        { success := true, code := some 0, stdout := "" } [] = .ok () ∧
    exitOutcome unitDec false
        { success := true, code := some 0, stdout := "" } [] = .error .Json ∧
    exitOutcome unitDec true { success := false, code := some 2, stdout := "" }
        [.ParsedErr
          { levelname := .ERROR, name := "borg", message := "oops",
            msgid := .Undefined }] =
      .error (.Failed [.ParsedErr
        { levelname := .ERROR, name := "borg", message := "oops",
          msgid := .Undefined }]) ∧
    exitOutcome unitDec true
        { success := false, code := some 2, stdout := "" } [] =
      .error (.ReturnCode (some 2)) ∧
    pollRun 1 10 100 unitDec true (fun _ => .Continue)
        { success := true, code := some 0, stdout := "" }
        [.eof] 0 (initPollState initStatus) =
      some (exitOutcome unitDec true
          { success := true, code := some 0, stdout := "" }
          (initPollState initStatus).status.messages,
        { initPollState initStatus with sendersClosed := true }) :=
  ⟨(exit_outcome_spec 1 10 100 unitDec _ []).1 () rfl rfl,
   (exit_outcome_spec 1 10 100 unitDec _ []).2.2.1 false rfl rfl,
   (exit_outcome_spec 1 10 100 unitDec _ _).2.2.2.1 true _ rfl rfl,
   (exit_outcome_spec 1 10 100 unitDec _ []).2.2.2.2.1 true rfl rfl,
   (exit_outcome_spec 1 10 100 unitDec _ []).2.2.2.2.2 true _ [] 0 _ rfl⟩

/-- Reflexivity-style introduction: `LockOnce` holds between states with equal `retried` flag and call. -/
theorem lockOnce_of_eq (lock : Nat) (s s' : HDState)
    (hr : s'.retried = s.retried) (hc : s'.call = s.call) :
    LockOnce lock s s' := by
  constructor
  · intro h
    exact ⟨hr.trans h, hc⟩
  · intro h
    exact Or.inl ⟨hr.trans h, hc⟩

/-- Transitivity: `LockOnce` composes: the lock-wait options are appended at most once
across consecutive portions of a run. -/
theorem lockOnce_trans (lock : Nat) (s₁ s₂ s₃ : HDState)
    (h12 : LockOnce lock s₁ s₂) (h23 : LockOnce lock s₂ s₃) :
    LockOnce lock s₁ s₃ := by
  obtain ⟨a12, b12⟩ := h12
  obtain ⟨a23, b23⟩ := h23
  constructor
  · intro h
    obtain ⟨hr2, hc2⟩ := a12 h
    obtain ⟨hr3, hc3⟩ := a23 hr2
    exact ⟨hr3, hc3.trans hc2⟩
  · intro h
    rcases b12 h with ⟨hr2, hc2⟩ | ⟨hr2, hc2⟩
    · rcases b23 hr2 with ⟨hr3, hc3⟩ | ⟨hr3, hc3⟩
      · exact Or.inl ⟨hr3, hc3.trans hc2⟩
      · exact Or.inr ⟨hr3, by rw [hc3, hc2]⟩
    · obtain ⟨hr3, hc3⟩ := a23 hr2
      exact Or.inr ⟨hr3, hc3.trans hc2⟩

/-- One reconnect-loop decision appends the lock-wait options at most
once. -/
theorem hdIter_lockOnce {T : Type} (maxR lock : Nat) (r : BResult T)
    (s : HDState) : LockOnce lock s (hdIter maxR lock r s).state := by
  cases r with
  | ok t => exact lockOnce_of_eq _ _ _ rfl rfl
  | error e =>
    simp only [hdIter]
    split_ifs <;> simp_all [LockOnce, HDStep.state]

/-- The whole reconnect loop appends the lock-wait options at most once: the
attempt function only rewrites the shared status, never the call. -/
theorem hdRun_lockOnce {T : Type}
    (att : Nat → BorgCall → Status → Option (BResult T × Status))
    (maxR lock : Nat) :
    ∀ (fuel n : Nat) (s : HDState) (r : BResult T) (s' : HDState),
      hdRun att maxR lock fuel n s = some (r, s') → LockOnce lock s s' := by
  intro fuel
  induction fuel with
  | zero =>
    intro n s r s' h
    simp [hdRun] at h
  | succ fuel ih =>
    intro n s r s' h
    unfold hdRun at h
    cases hatt : att n s.call s.status with
    | none =>
      rw [hatt] at h
      cases h
    | some rs =>
      rw [hatt] at h
      obtain ⟨r0, status'⟩ := rs
      dsimp only at h
      have hbase : LockOnce lock s { s with status := status' } :=
        lockOnce_of_eq _ _ _ rfl rfl
      have hstep := hdIter_lockOnce maxR lock r0 { s with status := status' }
      cases hit : hdIter maxR lock r0 { s with status := status' } with
      | done r1 s1 =>
        rw [hit] at h hstep
        simp only [Option.some.injEq, Prod.mk.injEq] at h
        obtain ⟨-, rfl⟩ := h
        exact lockOnce_trans _ _ _ _ hbase hstep
      | next s1 =>
        rw [hit] at h hstep
        exact lockOnce_trans _ _ _ _ hbase
          (lockOnce_trans _ _ _ _ hstep (ih _ _ _ _ h))

/-- Claim C1: the reconnect policy — a per-attempt result that is not a
connection-error failure is returned immediately and unmodified; the
lock-wait options are appended to the command at most once over the whole
job, tracked by the `retried` flag independently of the retry counter; when
the status is not already `Reconnecting` the retry counter is reset to zero
and the status set to `Reconnecting`; and once the counter has reached the
maximum the last connection-error failure is returned unmodified. -/
theorem reconnect_policy_spec {T : Type} (maxR lock : Nat) :
    (∀ (r : BResult T) (s : HDState),
        (∀ e, r = .error e → e.isConnectionError = false) →
        hdIter maxR lock r s = .done r s) ∧
    (∀ (att : Nat → BorgCall → Status → Option (BResult T × Status))
        (fuel n : Nat) (s : HDState) (r : BResult T) (s' : HDState),
        hdRun att maxR lock fuel n s = some (r, s') → LockOnce lock s s') ∧
    (∀ (e : BError) (s : HDState), e.isConnectionError = true →
        s.status.run ≠ .Reconnecting → 0 < maxR →
        ∃ s', hdIter (T := T) maxR lock (.error e) s = .next s' ∧
          s'.retries = 1 ∧ s'.status.run = .Reconnecting) ∧
    (∀ (e : BError) (s : HDState), e.isConnectionError = true →
        s.status.run = .Reconnecting → maxR ≤ s.retries →
        ∃ s', hdIter (T := T) maxR lock (.error e) s =
          .done (.error e) s') := by
  refine ⟨?_, fun att => hdRun_lockOnce att maxR lock, ?_, ?_⟩
  · intro r s h
    cases r with
    | ok t => rfl
    | error e => simp [hdIter, h e rfl]
  · intro e s hconn hrun hmax
    by_cases hret : s.retried
    · exact ⟨{ s with
               retries := 1
               status := { s.status with run := .Reconnecting } },
        by simp [hdIter, hconn, hret, hrun, hmax], rfl, rfl⟩
    · exact ⟨{ s with
               retried := true
               call := s.call.add_options (lockWaitOptions lock)
               retries := 1
               status := { s.status with run := .Reconnecting } },
        by simp [hdIter, hconn, hret, hrun, hmax], rfl, rfl⟩
  · intro e s hconn hrun hmax
    by_cases hret : s.retried
    · exact ⟨s, by simp [hdIter, hconn, hret, hrun, Nat.not_lt.mpr hmax]⟩
    · exact ⟨{ s with
               retried := true
               call := s.call.add_options (lockWaitOptions lock) },
        by simp [hdIter, hconn, hret, hrun, Nat.not_lt.mpr hmax]⟩

/-- Witness for `reconnect_policy_spec`: an immediate return of a
non-connection failure, a lock-once run, a reset-and-reconnect transition,
and an at-the-maximum return, at concrete inputs. -/
theorem reconnect_policy_spec_witness :
    hdIter (T := Unit) 3 60 (.error .Io) hdS0 = .done (.error .Io) hdS0 ∧
    LockOnce 60 hdS0 hdS0 ∧
    (∃ s', hdIter (T := Unit) 3 60 (.error connErr) hdS0 = .next s' ∧
        s'.retries = 1 ∧ s'.status.run = .Reconnecting) ∧
    (∃ s', hdIter (T := Unit) 3 60 (.error connErr) hdS3 =
        .done (.error connErr) s') :=
  ⟨(reconnect_policy_spec 3 60).1 _ hdS0 (fun e he => by cases he; rfl),
   (reconnect_policy_spec 3 60).2.1 (fun _ _ st => some (.ok (), st)) 1 0
     hdS0 (.ok ()) hdS0 rfl,
   (reconnect_policy_spec 3 60).2.2.1 connErr hdS0 rfl (by decide) (by decide),
   (reconnect_policy_spec 3 60).2.2.2 connErr hdS3 rfl rfl (by decide)⟩

/-- One poll-loop iteration never writes the `started` field: all its status
updates touch only `run` and the message history. -/
theorem pollIter_started (pt stall bound : Nat) (instr : Instruction)
    (ev : ReadEvent) (s : PollState) :
    (pollIter pt stall bound instr ev s).state.status.started =
      s.status.started := by
  cases instr with
  | Abort => rfl
  | Continue =>
    cases ev with
    | timeout =>
      by_cases h : stall < s.unresponsive + pt ∧ s.status.run ≠ Run.Reconnecting
      · simp [pollIter, h, PollStep.state]
      · simp [pollIter, eq_false h, PollStep.state]
    | readErr => rfl
    | eof => rfl
    | line parsed raw =>
      cases hcl : classifyLine parsed raw with
      | Progress p =>
        by_cases hrun : s.status.run ≠ Run.Running <;>
          simp [pollIter, hcl, hrun, PollStep.state]
      | LogEntry m =>
        simp [pollIter, hcl, PollStep.state, Status.addMessage]

/-- A whole attempt's poll loop never writes the `started` field. -/
theorem pollRun_started {T : Type} (pt stall bound : Nat)
    (dec : String → Option T) (isUnit : Bool) (instr : Nat → Instruction)
    (exit : ExitInfo) :
    ∀ (evs : List ReadEvent) (n : Nat) (s : PollState) (r : BResult T)
      (s' : PollState),
      pollRun pt stall bound dec isUnit instr exit evs n s = some (r, s') →
      s'.status.started = s.status.started := by
  intro evs
  induction evs with
  | nil =>
    intro n s r s' h
    cases h
  | cons ev evs ih =>
    intro n s r s' h
    unfold pollRun at h
    have hpre := pollIter_started pt stall bound (instr n) ev s
    cases hp : pollIter pt stall bound (instr n) ev s with
    | ret e s1 =>
      rw [hp] at h hpre
      simp only [Option.some.injEq, Prod.mk.injEq] at h
      obtain ⟨-, rfl⟩ := h
      exact hpre
    | brk s1 =>
      rw [hp] at h hpre
      simp only [Option.some.injEq, Prod.mk.injEq] at h
      obtain ⟨-, rfl⟩ := h
      exact hpre
    | cont s1 =>
      rw [hp] at h hpre
      exact (ih _ _ _ _ h).trans hpre

/-- One supervised attempt never writes the `started` field of the shared
status. -/
theorem managed_process_started {T : Type} (pt stall bound : Nat)
    (dec : String → Option T) (isUnit : Bool) (scr : AttemptScript)
    (st : Status) (r : BResult T) (st' : Status)
    (h : managed_process pt stall bound dec isUnit scr st = some (r, st')) :
    st'.started = st.started := by
  unfold managed_process at h
  cases hp : pollRun pt stall bound dec isUnit scr.instr scr.exit scr.events 0
      (initPollState st) with
  | none =>
    rw [hp] at h
    cases h
  | some rs =>
    rw [hp] at h
    obtain ⟨r0, ps⟩ := rs
    simp only [Option.some.injEq, Prod.mk.injEq] at h
    obtain ⟨-, rfl⟩ := h
    exact pollRun_started pt stall bound dec isUnit scr.instr scr.exit _ _ _ _ _ hp

/-- One reconnect-loop decision never writes the `started` field: its only
status update sets `run` to `Reconnecting`. -/
theorem hdIter_started {T : Type} (maxR lock : Nat) (r : BResult T)
    (s : HDState) :
    (hdIter maxR lock r s).state.status.started = s.status.started := by
  cases r with
  | ok t => rfl
  | error e =>
    simp only [hdIter]
    split_ifs <;> simp_all [HDStep.state]

/-- The reconnect loop never writes the `started` field, provided no attempt
does. -/
theorem hdRun_started {T : Type}
    (att : Nat → BorgCall → Status → Option (BResult T × Status))
    (maxR lock : Nat)
    (hatt : ∀ n c st r st', att n c st = some (r, st') →
        st'.started = st.started) :
    ∀ (fuel n : Nat) (s : HDState) (r : BResult T) (s' : HDState),
      hdRun att maxR lock fuel n s = some (r, s') →
      s'.status.started = s.status.started := by
  intro fuel
  induction fuel with
  | zero =>
    intro n s r s' h
    cases h
  | succ fuel ih =>
    intro n s r s' h
    unfold hdRun at h
    cases ha : att n s.call s.status with
    | none =>
      rw [ha] at h
      cases h
    | some rs =>
      rw [ha] at h
      obtain ⟨r0, status'⟩ := rs
      dsimp only at h
      have hst : status'.started = s.status.started := hatt _ _ _ _ _ ha
      have hpre := hdIter_started maxR lock r0 { s with status := status' }
      cases hit : hdIter maxR lock r0 { s with status := status' } with
      | done r1 s1 =>
        rw [hit] at h hpre
        simp only [Option.some.injEq, Prod.mk.injEq] at h
        obtain ⟨-, rfl⟩ := h
        have hpre' : s1.status.started = status'.started := by
          simpa [HDStep.state] using hpre
        exact hpre'.trans hst
      | next s1 =>
        rw [hit] at h hpre
        have hpre' : s1.status.started = status'.started := by
          simpa [HDStep.state] using hpre
        exact (ih _ _ _ _ h).trans (hpre'.trans hst)

/-- Claim C10: the job start timestamp is written exactly once per job —
`handle_disconnect` records it before the first attempt, and whatever the
number of reconnect cycles and attempts, the value observed at job end is
the one set before attempt one (every retry-induced or attempt-induced
status update touches only `run` and the message history). -/
theorem started_written_once {T : Type} (pt stall bound : Nat)
    (dec : String → Option T) (isUnit : Bool) (scripts : Nat → AttemptScript)
    (maxR lock now fuel : Nat) (call : BorgCall) (st : Status)
    (r : BResult T) (s' : HDState)
    (h : handle_disconnect_scripts pt stall bound dec isUnit scripts maxR lock
        now fuel call st = some (r, s')) :
    s'.status.started = some now := by
  unfold handle_disconnect_scripts handle_disconnect at h
  have := hdRun_started _ maxR lock
    (fun n c st0 r0 st0' hh =>
      managed_process_started pt stall bound dec isUnit (scripts n) st0 r0 st0' hh)
    fuel 0 _ r s' h
  simpa using this

/-- Witness for `started_written_once`: a one-attempt successful job started
at tick 5 ends with `started = some 5`. -/
theorem started_written_once_witness : okFinal.status.started = some 5 :=
  started_written_once 1 10 100 unitDec true (fun _ => okScript) 3 60 5 1
    (BorgCall.new "create") initStatus (.ok ()) okFinal rfl

end Pika
